import Mathlib

/-! TITA RC pairing tool: CRSF constants, command writes and the pairing program.

A shallow embedding of `crsf-app/uart-crsf.h` and `crsf-app/main.cpp`.

* Bytes, lengths and timestamps are natural numbers; a byte is a number below 256.
* The serial transport `fd1` is the list of bytes written to it so far, oldest first.
* The bodies of `CRSF::crsf_crc8`, `CRSF::readPacket`, `CRSF::updateChannels`,
  `CRSF::getChannel` and `CRSF::isConnected` are only declared in the header; their
  models below follow the written specification and say so in their doc comments.
-/

namespace TitaRcPairing

/-! ## Constants of `uart-crsf.h` -/

/-- Number of RC channels (`#define CRSF_MAX_CHANNEL 16`). -/
def CRSF_MAX_CHANNEL : Nat := 16

/-- Largest frame on the wire, in bytes (`#define CRSF_FRAME_SIZE_MAX 64`). -/
def CRSF_FRAME_SIZE_MAX : Nat := 64

/-- Link timeout (`#define CRSF_CONNECTION_TIMEOUT 1000`). -/
def CRSF_CONNECTION_TIMEOUT : Nat := 1000

/-- Settings-write frame type (`#define CRSF_TYPE_SETTINGS_WRITE 0x2D`). -/
def CRSF_TYPE_SETTINGS_WRITE : Nat := 0x2D

/-- Address of the Crossfire transmitter module (`0xEE`). -/
def CRSF_ADDRESS_MODULE : Nat := 0xEE

/-- Address of the radio transmitter (`0xEA`). -/
def CRSF_ADDRESS_RADIO : Nat := 0xEA

/-- Address of the flight controller (`0xC8`). -/
def CRSF_ADDRESS_FLIGHT_CONTROLLER : Nat := 0xC8

/-- Documented minimum channel input (`#define CRSF_CHANNEL_MIN 172`). -/
def CRSF_CHANNEL_MIN : Nat := 172

/-- Documented centre channel input (`#define CRSF_CHANNEL_MID 992`). -/
def CRSF_CHANNEL_MID : Nat := 992

/-- Documented maximum channel input (`#define CRSF_CHANNEL_MAX 1810`). -/
def CRSF_CHANNEL_MAX : Nat := 1810

/-- Per-frame time budget in microseconds
(`#define CRSF_TIME_NEEDED_PER_FRAME_US 1100`, line 50 of the header). -/
def CRSF_TIME_NEEDED_PER_FRAME_US : Nat := 1100

/-- Fastest frame period in microseconds (`#define CRSF_TIME_BETWEEN_FRAMES_US 6667`). -/
def CRSF_TIME_BETWEEN_FRAMES_US : Nat := 6667

/-- Packet timeout in microseconds (`#define CRSF_PACKET_TIMEOUT_US 100000`). -/
def CRSF_PACKET_TIMEOUT_US : Nat := 100000

/-- Largest payload in bytes (`#define CRSF_PAYLOAD_SIZE_MAX 60`). -/
def CRSF_PAYLOAD_SIZE_MAX : Nat := 60

/-- Size of the RC-channels payload in bytes (`#define CRSF_PACKET_LENGTH 22`). -/
def CRSF_PACKET_LENGTH : Nat := 22

/-- Size of a whole RC-channels packet in bytes (`#define CRSF_PACKET_SIZE 26`). -/
def CRSF_PACKET_SIZE : Nat := 26

/-- Length field of an RC-channels frame: type + payload + crc
(`#define CRSF_FRAME_LENGTH 24`). -/
def CRSF_FRAME_LENGTH : Nat := 24

/-- Frame type of the vendor customer command (`#define CRSF_CUSTOMER_CMD (0X31)`). -/
def CRSF_CUSTOMER_CMD : Nat := 0x31

/-- Serial line rate the header comment names (line 12): 420000 baud. -/
def baudRate : Nat := 420000

/-- Bits on the wire per byte, stop bit included: the header comment's
"420000 bit/s = 46667 byte/s (including stop bit)" (line 17). -/
def bitsPerByteOnWire : Nat := 9

/-- Time in microseconds, rounded to the nearest integer, to transmit `nbytes`
bytes at `baudRate` with `bitsPerByteOnWire` bits each. -/
def transmitTimeUs (nbytes : Nat) : Nat :=
  (nbytes * bitsPerByteOnWire * 1000000 + baudRate / 2) / baudRate

/-! ## The customer subcommand enumeration -/

/-- The enumeration `crsf_customer_cmd` of `uart-crsf.h`, lines 64-73. -/
inductive crsf_customer_cmd
  | CRSF_CUSTOMER_CMD_WIFI_MODE
  | CRSF_CUSTOMER_CMD_BINGING_MODE
  | CRSF_CUSTOMER_CMD_REV_DATA
  | CRSF_CUSTOMER_CMD_SET_STATUS
  | CRSF_CUSTOMER_CMD_RECONNECT
  | CRSF_CUSTOMER_CMD_DISCONNECT
  | CRSF_CUSTOMER_CMD_IS_BINGDING
  | CRSF_CUSTOMER_CMD_UART_LINKED
  deriving DecidableEq, Repr

/-- The integer value the enumeration gives each enumerator: its wire code. -/
def crsf_customer_cmd.code : crsf_customer_cmd → Nat
  | .CRSF_CUSTOMER_CMD_WIFI_MODE => 0x01
  | .CRSF_CUSTOMER_CMD_BINGING_MODE => 0x02
  | .CRSF_CUSTOMER_CMD_REV_DATA => 0x03
  | .CRSF_CUSTOMER_CMD_SET_STATUS => 0x04
  | .CRSF_CUSTOMER_CMD_RECONNECT => 0x05
  | .CRSF_CUSTOMER_CMD_DISCONNECT => 0x06
  | .CRSF_CUSTOMER_CMD_IS_BINGDING => 0x07
  | .CRSF_CUSTOMER_CMD_UART_LINKED => 0x08

/-- The enumerators, in the order of their declaration. -/
def crsf_customer_cmd.all : List crsf_customer_cmd :=
  [.CRSF_CUSTOMER_CMD_WIFI_MODE, .CRSF_CUSTOMER_CMD_BINGING_MODE, .CRSF_CUSTOMER_CMD_REV_DATA,
    .CRSF_CUSTOMER_CMD_SET_STATUS, .CRSF_CUSTOMER_CMD_RECONNECT, .CRSF_CUSTOMER_CMD_DISCONNECT,
    .CRSF_CUSTOMER_CMD_IS_BINGDING, .CRSF_CUSTOMER_CMD_UART_LINKED]

/-- The inverse lookup the enumeration determines: the enumerator whose wire code is
`b`, found by going through the enumerators, or none. -/
def crsf_customer_cmd.ofCode (b : Nat) : Option crsf_customer_cmd :=
  crsf_customer_cmd.all.find? fun c => c.code == b

/-! ## The engine's data members -/

/-- The data members of `class CRSF` (lines 79-94 of the header). Arrays are lists;
their declared sizes are `m_inBuffer_capacity`, `m_crsfData_capacity` and
`m_channels_capacity`. The two callback pointers are left out. -/
structure CRSF where
  m_inBuffer : List Nat
  m_crsfData : List Nat
  m_channels : List Nat
  m_lastPacketReceived : Nat
  m_disconnected : Bool
  uart_connected : Bool
  is_binding : Bool
  deriving Repr

/-- Declared size of `uint8_t m_inBuffer[CRSF_PACKET_SIZE]`. -/
def m_inBuffer_capacity : Nat := CRSF_PACKET_SIZE

/-- Declared size of `uint8_t m_crsfData[CRSF_PACKET_SIZE]`. -/
def m_crsfData_capacity : Nat := CRSF_PACKET_SIZE

/-- Declared size of `uint16_t m_channels[CRSF_MAX_CHANNEL]`. -/
def m_channels_capacity : Nat := CRSF_MAX_CHANNEL

/-- A candidate frame with length byte `length` occupies the buffer indices
`0 .. 2 + length - 1`; it stays inside `m_inBuffer` when all of them are below the
declared size. -/
def frameFitsInBuffer (length : Nat) : Prop :=
  ∀ idx, idx < 2 + length → idx < m_inBuffer_capacity

/-- Whether a frame fits is decidable: a bounded search over the indices. -/
instance frameFitsInBuffer.decidable (length : Nat) : Decidable (frameFitsInBuffer length) := by
  unfold frameFitsInBuffer
  infer_instance

/-! ## `main.cpp`: the program's world -/

/-- The four callbacks `main.cpp` defines. -/
inductive Callback
  | DataReadCallBack
  | EnterWifiModeCallBack
  | EnterBindModeCallBack
  | EnterRestartModeCallBack
  deriving DecidableEq, Repr

/-- What the program does to its surroundings: the bytes written to the serial
transport `fd1`, the strings passed to `printf`, the callback last registered with
`onDataReceived`, how often `uart_init` ran, and whether `read_data_start` was
entered. -/
structure World where
  fd1 : List Nat
  stdout : List String
  dataReceived : Option Callback
  uartInits : Nat
  reading : Bool
  deriving DecidableEq, Repr

/-- The world before `main` runs. -/
def World.initial : World :=
  { fd1 := [], stdout := [], dataReceived := none, uartInits := 0, reading := false }

/-- The call `write(fd1, buf, count)`: the first `count` bytes of `buf` go out on
the transport, in order. -/
def write (w : World) (buf : List Nat) (count : Nat) : World :=
  { w with fd1 := w.fd1 ++ buf.take count }

/-- The call `printf(s)`. -/
def printf (s : String) (w : World) : World :=
  { w with stdout := w.stdout ++ [s] }

/-- The call `fflush(stdout)`: no effect on the recorded world. -/
def fflush (w : World) : World := w

/-- The call `onDataReceived(cb)` of `crsf_include.h`: registers the callback. -/
def onDataReceived (cb : Callback) (w : World) : World :=
  { w with dataReceived := some cb }

/-- The call `uart_init()` of `crsf_include.h`: counted, nothing written by `main`. -/
def uart_init (w : World) : World :=
  { w with uartInits := w.uartInits + 1 }

/-- The call `read_data_start(0)` of `crsf_include.h`: the blocking read loop is
entered. -/
def read_data_start (w : World) : World :=
  { w with reading := true }

/-- The function `ElrsRestart` (main.cpp, lines 54-58): the two bytes of `data_t` are
written to `fd1`. -/
def ElrsRestart (w : World) : World :=
  let data_t : List Nat := [0x31, 0x05]
  write w data_t 2

/-- The function `ElrsEnterBind` (main.cpp, lines 60-64): the two bytes of `data_t`
are written to `fd1`. -/
def ElrsEnterBind (w : World) : World :=
  let data_t : List Nat := [0x31, 0x02]
  write w data_t 2

/-- The function `ElrsEnterWifi` (main.cpp, lines 66-70): the two bytes of `data_t`
are written to `fd1`. -/
def ElrsEnterWifi (w : World) : World :=
  let data_t : List Nat := [0x31, 0x01]
  write w data_t 2

/-- The loop `while (sleep(secs)) body;`. The values the successive `sleep` calls
find left unslept come from `sleeps`, oldest first; `sleep` returns the unslept
seconds, at most `secs`, and 0 once `sleeps` is used up. The body runs once for each
non-zero return; the loop ends at the first 0. Returns the unused `sleeps` and the
world. -/
def whileSleep (secs : Nat) (body : World → World) : List Nat → World → List Nat × World
  | [], w => ([], w)
  | r :: rest, w =>
    if min r secs = 0 then (rest, w) else whileSleep secs body rest (body w)

/-- The function `main` (main.cpp, lines 72-137). `argv1` is `argv[1]` (`none` for `NULL`),
`uart_is_connected` is what `uart_is_connected()` answers, `sleeps` feeds the
`sleep` calls. Returns the exit status and the final world. -/
def main (argv1 : Option String) (uart_is_connected : Bool) (sleeps : List Nat)
    (w0 : World) : Int × World :=
  let w := onDataReceived .DataReadCallBack w0
  let w := uart_init w
  let w := printf "正在检查串口通讯状态...\n" w
  let w := ElrsRestart w
  let (sleeps, w) := whileSleep 1 id sleeps w
  if uart_is_connected then
    let w := fflush w
    let w := printf "uart connect success\n" w
    match argv1 with
    | none => (0, read_data_start w)
    | some arg =>
      if arg = "-wifi" then
        let w := printf "正在进入wifi模式...\n" w
        let w := uart_init w
        let (_, w) := whileSleep 2 ElrsEnterWifi sleeps w
        let w := fflush w
        let w := printf "open wifi success\n" w
        let w := printf "请打开手机设备连接wifi,手动点击升级\n" w
        (0, w)
      else
        let (sleeps, w) :=
          if arg = "-bind" then
            let w := printf "正在进入配对模式...\n" w
            let w := uart_init w
            let (sleeps, w) := whileSleep 2 ElrsEnterBind sleeps w
            let w := fflush (fflush w)
            let w := printf "bind mode success\n" w
            let w := printf "请打开遥控器,左长按右侧按键进入TOOLS->ExpressLRS->[Bind],手动搜索配对\n" w
            let w := ElrsEnterBind w
            let (sleeps, w) := whileSleep 1 id sleeps w
            let w := uart_init w
            (sleeps, onDataReceived .EnterBindModeCallBack w)
          else (sleeps, w)
        if arg = "-restart" then
          let w := printf "正在重启...\n" w
          let (_, w) := whileSleep 3 id sleeps w
          let w := fflush w
          let w := printf "restart success\n" w
          let w := ElrsRestart w
          (0, w)
        else (0, read_data_start w)
  else
    let w := printf "失败，请检查接收机接线是否正确，是否正常亮灯\n" w
    (0, w)

/-! ## CRC-8 (DVB-S2), modelled from the specification -/

/-- Modelled from the spec: the body of `CRSF::crsf_crc8` is not in the sources. One
shift step of the CRC-8 register for the DVB-S2 polynomial `0xD5`: shift left by one
and, when the top bit was set, xor the polynomial in; the register keeps 8 bits. -/
def crc8_shift (c : Nat) : Nat :=
  if c &&& 0x80 ≠ 0 then ((c <<< 1) ^^^ 0xD5) &&& 0xFF else (c <<< 1) &&& 0xFF

/-- Modelled from the spec: the body of `CRSF::crsf_crc8` is not in the sources. The
table entry for index `i`: eight shift steps applied to `i`. -/
def crc8_entry (i : Nat) : Nat :=
  crc8_shift (crc8_shift (crc8_shift (crc8_shift
    (crc8_shift (crc8_shift (crc8_shift (crc8_shift i)))))))

/-- Modelled from the spec: the body of `CRSF::crsf_crc8` is not in the sources. The
precomputed 256-entry lookup table of the DVB-S2 CRC-8. -/
def crsf_crc8tab : List Nat := (List.range 256).map crc8_entry

/-- Modelled from the spec: the body of `CRSF::crsf_crc8` is not in the sources. One
table lookup per byte: `crc = crsf_crc8tab[crc ^ b]`. -/
def crc8_step (crc b : Nat) : Nat := crsf_crc8tab.getD (crc ^^^ b) 0

/-- Modelled from the spec: the body of `CRSF::crsf_crc8` is not in the sources.
`crsf_crc8(ptr, len)`: the CRC-8 of the first `len` bytes at `ptr`, from register 0,
one table lookup per byte. -/
def crsf_crc8 (ptr : List Nat) (len : Nat) : Nat :=
  (ptr.take len).foldl crc8_step 0

/-- Inverse of `crc8_shift` on bytes; used only in proofs, to show that the table is
a permutation of the bytes. -/
def crc8_unshift (c : Nat) : Nat :=
  if c % 2 = 1 then ((c ^^^ 0xD5) >>> 1) ||| 0x80 else c >>> 1

/-! ## The command encoder of the specification -/

/-- Modelled from the spec: the sources hold no frame serializer. The frame layout of
section 6: `address`, `length`, `type`, `payload`, `crc` in that order, where `length`
counts the bytes from `type` through `crc`. -/
def crsfSerialize (address type : Nat) (payload : List Nat) (crc : Nat) : List Nat :=
  address :: (1 + payload.length + 1) :: type :: (payload ++ [crc])

/-- Modelled from the spec: the sources hold no command encoder. The
`encode_customer_command` of section 4.5: address = module, type = customer command,
payload = the subcommand byte, crc = CRC-8 over `type || payload`. It is what the
bytes written by `ElrsRestart`, `ElrsEnterBind` and `ElrsEnterWifi` are compared
with. -/
def encode_customer_command (subcommand : Nat) : List Nat :=
  crsfSerialize CRSF_ADDRESS_MODULE CRSF_CUSTOMER_CMD [subcommand]
    (crsf_crc8 (CRSF_CUSTOMER_CMD :: [subcommand]) 2)

/-! ## The frame reassembler, modelled from the specification -/

/-- Modelled from the spec: the body of `CRSF::readPacket` is not in the sources. The
recognized addresses of section 6: module, radio transmitter, flight controller. -/
def isRecognizedAddress (address : Nat) : Bool :=
  address == CRSF_ADDRESS_MODULE || address == CRSF_ADDRESS_RADIO ||
    address == CRSF_ADDRESS_FLIGHT_CONTROLLER

/-- Modelled from the spec: the body of `CRSF::readPacket` is not in the sources.
Step 1 of section 4.2: append the incoming bytes to the buffer, bounded by
`capacity`; a byte that would overflow drops the oldest unconsumed byte. -/
def appendBounded (capacity : Nat) (buffer : List Nat) : List Nat → List Nat
  | [] => buffer
  | b :: bs =>
    appendBounded capacity
      (if buffer.length < capacity then buffer ++ [b] else buffer.drop 1 ++ [b]) bs

/-- Modelled from the spec: the body of `CRSF::readPacket` is not in the sources.
Steps 2 to 5 of section 4.2 on the buffered bytes: an unrecognized address, a length
outside `[3, CRSF_FRAME_SIZE_MAX - 2]` or a CRC mismatch discards byte 0 and retries;
fewer than `2 + length` buffered bytes stop the loop; a CRC match emits the frame
`[0, 2 + length)` and goes on behind it. Every round that goes on shortens the
buffer, so `fuel = buffer.length` rounds reach the end of the loop. Returns the
emitted frames in order and the bytes left in the buffer. -/
def parseFrames : Nat → List Nat → List (List Nat) × List Nat
  | 0, buf => ([], buf)
  | fuel + 1, buf =>
    match buf with
    | address :: length :: rest =>
      if isRecognizedAddress address = false then parseFrames fuel (length :: rest)
      else if length < 3 ∨ CRSF_FRAME_SIZE_MAX - 2 < length then
        parseFrames fuel (length :: rest)
      else if rest.length < length then ([], buf)
      else if crsf_crc8 rest (length - 1) = rest.getD (length - 1) 0 then
        ((address :: length :: rest.take length) :: (parseFrames fuel (rest.drop length)).1,
          (parseFrames fuel (rest.drop length)).2)
      else parseFrames fuel (length :: rest)
    | _ => ([], buf)

/-- Modelled from the spec: the body of `CRSF::readPacket` is not in the sources.
`readPacket(inData, len)` is the specification's `feed`: the first `len` bytes of
`inData` are appended to the buffered bytes, then frames are parsed off the front.
The buffer capacity is a parameter: the specification names `CRSF_FRAME_SIZE_MAX`,
the header declares `m_inBuffer` with `CRSF_PACKET_SIZE`. Returns the emitted frames
and the new buffer content. -/
def readPacket (capacity : Nat) (buffer inData : List Nat) (len : Nat) :
    List (List Nat) × List Nat :=
  parseFrames (appendBounded capacity buffer (inData.take len)).length
    (appendBounded capacity buffer (inData.take len))

/-- Modelled from the spec: the frame checks of `CRSF::readPacket` are not in the
sources. A valid frame as the data model of section 3 has it: a recognized address, a
length byte within `[3, CRSF_FRAME_SIZE_MAX - 2]` that counts the bytes behind it, and
a last byte equal to the CRC-8 of the bytes from the type up to the end of the
payload. -/
def frameValid : List Nat → Prop
  | address :: length :: rest =>
    isRecognizedAddress address = true ∧ 3 ≤ length ∧ length ≤ CRSF_FRAME_SIZE_MAX - 2 ∧
      rest.length = length ∧ crsf_crc8 rest (length - 1) = rest.getD (length - 1) 0
  | _ => False

/-- Frame validity is decidable: every check is a comparison of numbers. -/
instance frameValid.decidable : (frame : List Nat) → Decidable (frameValid frame)
  | [] => isFalse (fun h => h)
  | [_] => isFalse (fun h => h)
  | address :: length :: rest =>
    inferInstanceAs (Decidable (isRecognizedAddress address = true ∧ 3 ≤ length ∧
      length ≤ CRSF_FRAME_SIZE_MAX - 2 ∧ rest.length = length ∧
      crsf_crc8 rest (length - 1) = rest.getD (length - 1) 0))

/-- The bytes with one bit flipped: bit `k % 8` of byte `k / 8` of `bytes`. -/
def flipBit (bytes : List Nat) (k : Nat) : List Nat :=
  bytes.set (k / 8) (bytes.getD (k / 8) 0 ^^^ 2 ^ (k % 8))

/-! ## The RC-channels decoder, modelled from the specification -/

/-- Modelled from the spec: the body of `CRSF::updateChannels` is not in the sources.
The payload as one continuous little-endian bitstream: the bytes in order, each
byte's bits from bit 0 up to bit 7. -/
def payloadBits (payload : List Nat) : List Bool :=
  payload.flatMap fun b => (List.range 8).map fun j => b.testBit j

/-- Modelled from the spec: the body of `CRSF::updateChannels` is not in the sources.
The unsigned integer a little-endian bit field stands for. -/
def bitsToNat : List Bool → Nat
  | [] => 0
  | b :: bs => (if b then 1 else 0) + 2 * bitsToNat bs

/-- Modelled from the spec: the body of `CRSF::updateChannels` is not in the sources.
Section 4.3: 16 consecutive 11-bit little-endian fields are unpacked from the
payload; channel `i` is the bits `[11 * i, 11 * i + 11)` of the bitstream. -/
def decodeChannels (payload : List Nat) : List Nat :=
  (List.range CRSF_MAX_CHANNEL).map fun i =>
    bitsToNat (((payloadBits payload).drop (11 * i)).take 11)

/-- Modelled from the spec: the body of `CRSF::updateChannels` is not in the sources.
`updateChannels()` replaces `m_channels` by the channels decoded from the payload of
the packet held in `m_crsfData`, the `CRSF_PACKET_LENGTH` bytes behind address,
length and type. -/
def CRSF.updateChannels (self : CRSF) : CRSF :=
  { self with m_channels := decodeChannels ((self.m_crsfData.drop 3).take CRSF_PACKET_LENGTH) }

/-- Modelled from the spec: the body of `CRSF::getChannel` is not in the sources.
`getChannel(channel)` reads `m_channels[channel]`. -/
def CRSF.getChannel (self : CRSF) (channel : Nat) : Nat :=
  self.m_channels.getD channel 0

/-- The payload read as one little-endian integer: byte `j` has weight `256 ^ j`. -/
def littleEndianValue : List Nat → Nat
  | [] => 0
  | b :: bs => b + 256 * littleEndianValue bs

/-- Modelled from the spec: the sources hold no channel encoder. The bits of a
bitstream grouped into bytes, eight bits to a byte, low bit first. -/
def bitsToBytes : Nat → List Bool → List Nat
  | 0, _ => []
  | n + 1, bits => bitsToNat (bits.take 8) :: bitsToBytes n (bits.drop 8)

/-- Modelled from the spec: the sources hold no channel encoder. The RC-channels
payload that packs the given channel values in the bit order of section 4.3: the
values' 11-bit little-endian fields one behind the other, cut into
`CRSF_PACKET_LENGTH` bytes. -/
def packChannels (channels : List Nat) : List Nat :=
  bitsToBytes CRSF_PACKET_LENGTH
    (channels.flatMap fun v => (List.range 11).map fun j => v.testBit j)

/-- The payload of an RC-channels frame with all sixteen channels at 992
(`CRSF_CHANNEL_MID`), as `packChannels` produces it. -/
def centrePayload : List Nat :=
  [224, 3, 31, 248, 192, 7, 62, 240, 129, 15, 124, 224, 3, 31, 248, 192, 7, 62, 240, 129, 15, 124]

/-- An engine holding in `m_crsfData` the packet to the flight controller with
length `CRSF_FRAME_LENGTH`, type `0x16`, the payload `centrePayload` and its CRC. -/
def centreEngine : CRSF :=
  { m_inBuffer := List.replicate m_inBuffer_capacity 0
    m_crsfData := CRSF_ADDRESS_FLIGHT_CONTROLLER :: CRSF_FRAME_LENGTH :: 0x16 ::
      (centrePayload ++ [crsf_crc8 (0x16 :: centrePayload) (CRSF_FRAME_LENGTH - 1)])
    m_channels := List.replicate m_channels_capacity 0
    m_lastPacketReceived := 0
    m_disconnected := true
    uart_connected := false
    is_binding := false }

/-! ## The connection tracker, modelled from the specification -/

/-- Number of values of an `unsigned long`, the type of `m_lastPacketReceived`, on
the 64-bit Linux targets of the package. -/
def ULONG_MODULUS : Nat := 2 ^ 64

/-- Modelled from the spec: the engine's `note_frame_received(timestamp)` of section
4.4 is not in the sources. It stores the timestamp in `m_lastPacketReceived`. -/
def CRSF.noteFrameReceived (self : CRSF) (timestamp : Nat) : CRSF :=
  { self with m_lastPacketReceived := timestamp }

/-- Modelled from the spec: the body of `CRSF::isConnected` is not in the sources.
Section 4.4: `now - last_packet_received_at < connection_timeout`, the subtraction
being the one of `unsigned long`. `now` is the clock value at the poll. -/
def CRSF.isConnected (self : CRSF) (now : Nat) : Bool :=
  decide ((now + ULONG_MODULUS - self.m_lastPacketReceived % ULONG_MODULUS) % ULONG_MODULUS
    < CRSF_CONNECTION_TIMEOUT)

/-- An engine with zeroed buffers and no frame received yet. -/
def CRSF.initial : CRSF :=
  { m_inBuffer := List.replicate m_inBuffer_capacity 0
    m_crsfData := List.replicate m_crsfData_capacity 0
    m_channels := List.replicate m_channels_capacity 0
    m_lastPacketReceived := 0
    m_disconnected := true
    uart_connected := false
    is_binding := false }

/-! ## Outgoing commands -/

/-- The encoder's frame for a subcommand, byte by byte: module address, length 3,
customer-command type, the subcommand, the CRC-8 of type and subcommand. -/
theorem encode_customer_command_bytes (subcommand : Nat) :
    encode_customer_command subcommand =
      [0xEE, 3, 0x31, subcommand, crsf_crc8 [0x31, subcommand] 2] := by
  simp [encode_customer_command, crsfSerialize, CRSF_ADDRESS_MODULE, CRSF_CUSTOMER_CMD]

/-- C1, as stated, fails: what `ElrsRestart`, `ElrsEnterBind` and `ElrsEnterWifi`
write is in no case the complete CRSF frame of the command (address `0xEE`, length
3, type `0x31`, subcommand, CRC-8); the writes are two bytes long, the frames five. -/
theorem elrs_writes_are_not_frames :
    (ElrsRestart World.initial).fd1
        ≠ crsfSerialize CRSF_ADDRESS_MODULE CRSF_CUSTOMER_CMD [0x05] (crsf_crc8 [0x31, 0x05] 2) ∧
      (ElrsEnterBind World.initial).fd1
        ≠ crsfSerialize CRSF_ADDRESS_MODULE CRSF_CUSTOMER_CMD [0x02] (crsf_crc8 [0x31, 0x02] 2) ∧
      (ElrsEnterWifi World.initial).fd1
        ≠ crsfSerialize CRSF_ADDRESS_MODULE CRSF_CUSTOMER_CMD [0x01] (crsf_crc8 [0x31, 0x01] 2) ∧
      (ElrsRestart World.initial).fd1.length = 2 ∧
      (crsfSerialize CRSF_ADDRESS_MODULE CRSF_CUSTOMER_CMD [0x05]
        (crsf_crc8 [0x31, 0x05] 2)).length = 5 := by
  simp [ElrsRestart, ElrsEnterBind, ElrsEnterWifi, write, World.initial, crsfSerialize,
    CRSF_ADDRESS_MODULE]

/-- C1, amended: each of `ElrsRestart`, `ElrsEnterBind` and `ElrsEnterWifi` appends to
the transport only the type and payload fields of the command's CRSF frame, the bytes
at offsets 2 and 3 of `address, length, type, payload, crc` with address `0xEE`,
length 3, type `0x31` and payload the subcommand byte; the address, the length and
the CRC are not written. -/
theorem elrs_writes_type_and_payload_only (w : World) :
    (ElrsRestart w).fd1 = w.fd1 ++
        ((encode_customer_command crsf_customer_cmd.CRSF_CUSTOMER_CMD_RECONNECT.code).drop 2).take 2 ∧
      (ElrsEnterBind w).fd1 = w.fd1 ++
        ((encode_customer_command crsf_customer_cmd.CRSF_CUSTOMER_CMD_BINGING_MODE.code).drop 2).take 2 ∧
      (ElrsEnterWifi w).fd1 = w.fd1 ++
        ((encode_customer_command crsf_customer_cmd.CRSF_CUSTOMER_CMD_WIFI_MODE.code).drop 2).take 2 ∧
      ∀ subcommand, encode_customer_command subcommand =
        [CRSF_ADDRESS_MODULE, 3, CRSF_CUSTOMER_CMD, subcommand,
          crsf_crc8 [CRSF_CUSTOMER_CMD, subcommand] 2] := by
  refine ⟨?_, ?_, ?_, ?_⟩
  · simp [ElrsRestart, write, encode_customer_command_bytes, crsf_customer_cmd.code]
  · simp [ElrsEnterBind, write, encode_customer_command_bytes, crsf_customer_cmd.code]
  · simp [ElrsEnterWifi, write, encode_customer_command_bytes, crsf_customer_cmd.code]
  · intro subcommand
    simp [encode_customer_command_bytes, CRSF_ADDRESS_MODULE, CRSF_CUSTOMER_CMD]

/-- C2: each of `ElrsRestart`, `ElrsEnterBind` and `ElrsEnterWifi` changes the world
only by appending two bytes to the transport: `CRSF_CUSTOMER_CMD` (0x31) and then the
code of `CRSF_CUSTOMER_CMD_RECONNECT` (0x05), `CRSF_CUSTOMER_CMD_BINGING_MODE` (0x02)
or `CRSF_CUSTOMER_CMD_WIFI_MODE` (0x01); no address, length or CRC byte goes out. -/
theorem elrs_writes_two_raw_bytes (w : World) :
    ElrsRestart w = { w with fd1 := w.fd1 ++
        [CRSF_CUSTOMER_CMD, crsf_customer_cmd.CRSF_CUSTOMER_CMD_RECONNECT.code] } ∧
      ElrsEnterBind w = { w with fd1 := w.fd1 ++
        [CRSF_CUSTOMER_CMD, crsf_customer_cmd.CRSF_CUSTOMER_CMD_BINGING_MODE.code] } ∧
      ElrsEnterWifi w = { w with fd1 := w.fd1 ++
        [CRSF_CUSTOMER_CMD, crsf_customer_cmd.CRSF_CUSTOMER_CMD_WIFI_MODE.code] } ∧
      [CRSF_CUSTOMER_CMD, crsf_customer_cmd.CRSF_CUSTOMER_CMD_RECONNECT.code] = [0x31, 0x05] ∧
      [CRSF_CUSTOMER_CMD, crsf_customer_cmd.CRSF_CUSTOMER_CMD_BINGING_MODE.code] = [0x31, 0x02] ∧
      [CRSF_CUSTOMER_CMD, crsf_customer_cmd.CRSF_CUSTOMER_CMD_WIFI_MODE.code] = [0x31, 0x01] := by
  simp [ElrsRestart, ElrsEnterBind, ElrsEnterWifi, write, CRSF_CUSTOMER_CMD,
    crsf_customer_cmd.code]

/-! ## Buffer capacity -/

/-- A frame fits in `m_inBuffer` exactly when its `2 + length` bytes are at most the
declared size. -/
theorem frameFitsInBuffer_iff (length : Nat) :
    frameFitsInBuffer length ↔ 2 + length ≤ m_inBuffer_capacity := by
  constructor
  · intro h
    have h1 := h (1 + length) (by omega)
    omega
  · intro h idx hidx
    omega

/-- C5, as stated, fails: `m_inBuffer` is declared with `CRSF_PACKET_SIZE` (26)
bytes, not `CRSF_FRAME_SIZE_MAX` (64), and the length byte 25 passes the bounds check
`3 <= length <= CRSF_FRAME_SIZE_MAX - 2` while its 27 bytes do not fit. -/
theorem m_inBuffer_is_not_max_frame_size :
    m_inBuffer_capacity ≠ CRSF_FRAME_SIZE_MAX ∧
      3 ≤ 25 ∧ 25 ≤ CRSF_FRAME_SIZE_MAX - 2 ∧ ¬ frameFitsInBuffer 25 := by
  refine ⟨by decide, by decide, by decide, ?_⟩
  rw [frameFitsInBuffer_iff]
  decide

/-- C5, amended: `m_inBuffer` has the capacity `CRSF_PACKET_SIZE` (26), so that a
length byte that passes the bounds check `3 <= length <= CRSF_FRAME_SIZE_MAX - 2` has
its `2 + length` bytes inside the buffer exactly when `length <= CRSF_FRAME_LENGTH`
(24), the length of the RC-channels frame. -/
theorem m_inBuffer_fits_up_to_rc_frame (length : Nat) (h3 : 3 ≤ length)
    (_hmax : length ≤ CRSF_FRAME_SIZE_MAX - 2) :
    m_inBuffer_capacity = CRSF_PACKET_SIZE ∧
      (frameFitsInBuffer length ↔ length ≤ CRSF_FRAME_LENGTH) := by
  refine ⟨rfl, ?_⟩
  rw [frameFitsInBuffer_iff]
  simp only [m_inBuffer_capacity, CRSF_PACKET_SIZE, CRSF_FRAME_LENGTH]
  omega

/-- Witness of `m_inBuffer_fits_up_to_rc_frame` at the RC-channels frame's length. -/
theorem m_inBuffer_fits_up_to_rc_frame_witness :
    (3 ≤ 24 ∧ 24 ≤ CRSF_FRAME_SIZE_MAX - 2) ∧
      (m_inBuffer_capacity = CRSF_PACKET_SIZE ∧
        (frameFitsInBuffer 24 ↔ 24 ≤ CRSF_FRAME_LENGTH)) :=
  ⟨⟨by decide, by decide⟩, m_inBuffer_fits_up_to_rc_frame 24 (by decide) (by decide)⟩

/-! ## The customer subcommand codes -/

/-- The inverse lookup finds exactly the enumerator that has the code. -/
theorem ofCode_eq_some_iff (b : Nat) (c : crsf_customer_cmd) :
    crsf_customer_cmd.ofCode b = some c ↔ c.code = b := by
  constructor
  · intro h
    have := List.find?_some h
    simpa using this
  · intro h
    subst h
    cases c <;> rfl

/-- C6: the enumeration gives the eight subcommands the codes 0x01 to 0x08 in the
order wifi, bind, receive-data, set-status, reconnect, disconnect, query-binding,
query-uart-linked; the mapping is injective; a byte is the code of a (then unique)
subcommand exactly when it lies in 0x01..0x08, and 0xFF is the code of none; the
inverse lookup `ofCode` yields a command exactly for the bytes 0x01..0x08 and none for
0xFF. -/
theorem crsf_customer_cmd_codes :
    crsf_customer_cmd.CRSF_CUSTOMER_CMD_WIFI_MODE.code = 0x01 ∧
      crsf_customer_cmd.CRSF_CUSTOMER_CMD_BINGING_MODE.code = 0x02 ∧
      crsf_customer_cmd.CRSF_CUSTOMER_CMD_REV_DATA.code = 0x03 ∧
      crsf_customer_cmd.CRSF_CUSTOMER_CMD_SET_STATUS.code = 0x04 ∧
      crsf_customer_cmd.CRSF_CUSTOMER_CMD_RECONNECT.code = 0x05 ∧
      crsf_customer_cmd.CRSF_CUSTOMER_CMD_DISCONNECT.code = 0x06 ∧
      crsf_customer_cmd.CRSF_CUSTOMER_CMD_IS_BINGDING.code = 0x07 ∧
      crsf_customer_cmd.CRSF_CUSTOMER_CMD_UART_LINKED.code = 0x08 ∧
      Function.Injective crsf_customer_cmd.code ∧
      (∀ b : Nat, (∃! c : crsf_customer_cmd, c.code = b) ↔ (0x01 ≤ b ∧ b ≤ 0x08)) ∧
      (¬ ∃ c : crsf_customer_cmd, c.code = 0xFF) ∧
      (∀ (b : Nat) (c : crsf_customer_cmd),
        crsf_customer_cmd.ofCode b = some c ↔ c.code = b) ∧
      (∀ b : Nat, (crsf_customer_cmd.ofCode b).isSome = true ↔ (0x01 ≤ b ∧ b ≤ 0x08)) ∧
      crsf_customer_cmd.ofCode 0xFF = none := by
  have hinj : Function.Injective crsf_customer_cmd.code := by
    intro a b h
    cases a <;> cases b <;> first | rfl | (exact absurd h (by decide))
  have hrange : ∀ c : crsf_customer_cmd, 1 ≤ c.code ∧ c.code ≤ 8 := by
    intro c
    cases c <;> decide
  have hof := ofCode_eq_some_iff
  refine ⟨rfl, rfl, rfl, rfl, rfl, rfl, rfl, rfl, hinj, ?_, ?_, hof, ?_, by decide⟩
  rotate_left 2
  · intro b
    rw [Option.isSome_iff_exists]
    constructor
    · rintro ⟨c, hc⟩
      have := hrange c
      rw [(hof b c).mp hc] at this
      exact this
    · rintro ⟨h1, h8⟩
      have hb : b = 1 ∨ b = 2 ∨ b = 3 ∨ b = 4 ∨ b = 5 ∨ b = 6 ∨ b = 7 ∨ b = 8 := by omega
      rcases hb with h | h | h | h | h | h | h | h <;> subst h <;> exact ⟨_, rfl⟩
  · intro b
    constructor
    · rintro ⟨c, hc, -⟩
      subst hc
      cases c <;> decide
    · rintro ⟨h1, h8⟩
      have hex : ∃ c : crsf_customer_cmd, c.code = b := by
        have hb : b = 1 ∨ b = 2 ∨ b = 3 ∨ b = 4 ∨ b = 5 ∨ b = 6 ∨ b = 7 ∨ b = 8 := by omega
        rcases hb with h | h | h | h | h | h | h | h <;> subst h
        · exact ⟨.CRSF_CUSTOMER_CMD_WIFI_MODE, rfl⟩
        · exact ⟨.CRSF_CUSTOMER_CMD_BINGING_MODE, rfl⟩
        · exact ⟨.CRSF_CUSTOMER_CMD_REV_DATA, rfl⟩
        · exact ⟨.CRSF_CUSTOMER_CMD_SET_STATUS, rfl⟩
        · exact ⟨.CRSF_CUSTOMER_CMD_RECONNECT, rfl⟩
        · exact ⟨.CRSF_CUSTOMER_CMD_DISCONNECT, rfl⟩
        · exact ⟨.CRSF_CUSTOMER_CMD_IS_BINGDING, rfl⟩
        · exact ⟨.CRSF_CUSTOMER_CMD_UART_LINKED, rfl⟩
      obtain ⟨c, hc⟩ := hex
      exact ⟨c, hc, fun d hd => hinj (hd.trans hc.symm)⟩
  · rintro ⟨c, hc⟩
    cases c <;> exact absurd hc (by decide)

/-! ## Connection timeout -/

/-- C7: with a frame last received at `T` and a poll at `now >= T`, `isConnected` is
true exactly when `now - T < CRSF_CONNECTION_TIMEOUT` (1000); it is true at
`T + 999` and false at `T + 1001`, the clock being an `unsigned long`. -/
theorem isConnected_iff_within_timeout (self : CRSF) (T now : Nat) (hT : T ≤ now)
    (hnow : now < ULONG_MODULUS) :
    ((self.noteFrameReceived T).isConnected now = true ↔ now - T < CRSF_CONNECTION_TIMEOUT) ∧
      CRSF_CONNECTION_TIMEOUT = 1000 ∧
      (self.noteFrameReceived T).isConnected ((T + 999) % ULONG_MODULUS) = true ∧
      (self.noteFrameReceived T).isConnected ((T + 1001) % ULONG_MODULUS) = false := by
  simp only [CRSF.isConnected, CRSF.noteFrameReceived, ULONG_MODULUS, CRSF_CONNECTION_TIMEOUT,
    decide_eq_true_eq, decide_eq_false_iff_not] at *
  norm_num at *
  refine ⟨?_, ?_, ?_⟩ <;> omega

/-- Witness of `isConnected_iff_within_timeout`: a frame at 5000, a poll at 5999. -/
theorem isConnected_iff_within_timeout_witness :
    (5000 ≤ 5999 ∧ 5999 < ULONG_MODULUS) ∧
      (((CRSF.initial.noteFrameReceived 5000).isConnected 5999 = true ↔
          5999 - 5000 < CRSF_CONNECTION_TIMEOUT) ∧
        CRSF_CONNECTION_TIMEOUT = 1000 ∧
        (CRSF.initial.noteFrameReceived 5000).isConnected ((5000 + 999) % ULONG_MODULUS) = true ∧
        (CRSF.initial.noteFrameReceived 5000).isConnected ((5000 + 1001) % ULONG_MODULUS) = false) :=
  ⟨⟨by decide, by decide⟩,
    isConnected_iff_within_timeout CRSF.initial 5000 5999 (by decide) (by decide)⟩

/-! ## Timing and geometry constants -/

/-- C8 on the code: the header defines `CRSF_TIME_NEEDED_PER_FRAME_US` as 1100, which
is not the documented 1500 and is below the 1393 microseconds a 64-byte frame plus one
sync byte takes at 420000 bit/s with 9 bits per byte. -/
theorem time_needed_per_frame_is_1100 :
    CRSF_TIME_NEEDED_PER_FRAME_US = 1100 ∧
      transmitTimeUs (CRSF_FRAME_SIZE_MAX + 1) = 1393 ∧
      CRSF_TIME_NEEDED_PER_FRAME_US ≠ 1500 ∧
      ¬ (transmitTimeUs (CRSF_FRAME_SIZE_MAX + 1) ≤ CRSF_TIME_NEEDED_PER_FRAME_US) := by
  decide

/-- C9: 16 channels of 11 bits fill the 8 * `CRSF_PACKET_LENGTH` = 176 bits of the
22-byte payload; `CRSF_FRAME_LENGTH` is type + payload + crc; `CRSF_PACKET_SIZE` is
address + length + `CRSF_FRAME_LENGTH`; `CRSF_PAYLOAD_SIZE_MAX` is
`CRSF_FRAME_SIZE_MAX - 4`; and the RC frame's length 24 lies in
`[3, CRSF_FRAME_SIZE_MAX - 2]`. -/
theorem rc_frame_geometry_consistent :
    CRSF_MAX_CHANNEL * 11 = 8 * CRSF_PACKET_LENGTH ∧
      CRSF_MAX_CHANNEL = 16 ∧ 8 * CRSF_PACKET_LENGTH = 176 ∧ CRSF_PACKET_LENGTH = 22 ∧
      CRSF_FRAME_LENGTH = 1 + CRSF_PACKET_LENGTH + 1 ∧ CRSF_FRAME_LENGTH = 24 ∧
      CRSF_PACKET_SIZE = 1 + 1 + CRSF_FRAME_LENGTH ∧ CRSF_PACKET_SIZE = 26 ∧
      CRSF_PAYLOAD_SIZE_MAX = CRSF_FRAME_SIZE_MAX - 4 ∧ CRSF_PAYLOAD_SIZE_MAX = 60 ∧
      3 ≤ CRSF_FRAME_LENGTH ∧ CRSF_FRAME_LENGTH ≤ CRSF_FRAME_SIZE_MAX - 2 := by
  decide

/-! ## The `-wifi` run of `main` -/

/-- A `while (sleep(secs))` loop whose sleeps all complete never runs its body: it
uses up one sleep and leaves the world as it was. -/
theorem whileSleep_uninterrupted (secs : Nat) (body : World → World) (sleeps : List Nat)
    (hs : ∀ s ∈ sleeps, s = 0) (w : World) :
    whileSleep secs body sleeps w = (sleeps.tail, w) := by
  cases sleeps with
  | nil => rfl
  | cons r rest =>
    have hr : r = 0 := hs r (by simp)
    subst hr
    simp [whileSleep]

/-- C10: in a run of `main` with `argv[1] = "-wifi"`, the UART reported connected and
every `sleep` completing (returning 0), the bytes written to the transport are the
restart command `[0x31, 0x05]` and nothing more; the enter-wifi command `[0x31, 0x01]`
is not among them; `main` prints "open wifi success" and returns 0. -/
theorem main_wifi_writes_only_restart (sleeps : List Nat) (hs : ∀ s ∈ sleeps, s = 0)
    (w0 : World) :
    (main (some "-wifi") true sleeps w0).2.fd1 = w0.fd1 ++ [0x31, 0x05] ∧
      (main (some "-wifi") true sleeps World.initial).2.fd1 = [0x31, 0x05] ∧
      ¬ [0x31, 0x01] <:+: (main (some "-wifi") true sleeps World.initial).2.fd1 ∧
      "open wifi success\n" ∈ (main (some "-wifi") true sleeps w0).2.stdout ∧
      (main (some "-wifi") true sleeps w0).1 = 0 := by
  have htail : ∀ s ∈ sleeps.tail, s = 0 := fun s h => hs s (List.mem_of_mem_tail h)
  have key : ∀ w : World, (main (some "-wifi") true sleeps w).2.fd1 = w.fd1 ++ [0x31, 0x05] ∧
      "open wifi success\n" ∈ (main (some "-wifi") true sleeps w).2.stdout ∧
      (main (some "-wifi") true sleeps w).1 = 0 := by
    intro w
    simp [main, whileSleep_uninterrupted _ _ sleeps hs, whileSleep_uninterrupted _ _ sleeps.tail htail,
      ElrsRestart, write, printf, fflush, uart_init, onDataReceived]
  have hinit := (key World.initial).1
  refine ⟨(key w0).1, hinit, ?_, (key w0).2.1, (key w0).2.2⟩
  rw [hinit]
  decide

/-- Witness of `main_wifi_writes_only_restart`: three sleeps, all completing. -/
theorem main_wifi_writes_only_restart_witness :
    (∀ s ∈ [0, 0, 0], s = 0) ∧
      ((main (some "-wifi") true [0, 0, 0] World.initial).2.fd1 = World.initial.fd1 ++ [0x31, 0x05] ∧
        (main (some "-wifi") true [0, 0, 0] World.initial).2.fd1 = [0x31, 0x05] ∧
        ¬ [0x31, 0x01] <:+: (main (some "-wifi") true [0, 0, 0] World.initial).2.fd1 ∧
        "open wifi success\n" ∈ (main (some "-wifi") true [0, 0, 0] World.initial).2.stdout ∧
        (main (some "-wifi") true [0, 0, 0] World.initial).1 = 0) :=
  ⟨by decide, main_wifi_writes_only_restart [0, 0, 0] (by decide) World.initial⟩

/-! ## CRC-8: the table is a permutation of the bytes -/

theorem crc8_shift_lt : ∀ a < 256, crc8_shift a < 256 := by
  decide!

theorem crc8_unshift_shift : ∀ a < 256, crc8_unshift (crc8_shift a) = a := by
  decide!

theorem crc8_shift_inj {a b : Nat} (ha : a < 256) (hb : b < 256)
    (h : crc8_shift a = crc8_shift b) : a = b := by
  rw [← crc8_unshift_shift a ha, ← crc8_unshift_shift b hb, h]

theorem crc8_entry_lt {a : Nat} (ha : a < 256) : crc8_entry a < 256 := by
  unfold crc8_entry
  repeat apply crc8_shift_lt
  exact ha

theorem crc8_entry_inj {a b : Nat} (ha : a < 256) (hb : b < 256)
    (h : crc8_entry a = crc8_entry b) : a = b := by
  unfold crc8_entry at h
  have s1a := crc8_shift_lt a ha
  have s1b := crc8_shift_lt b hb
  have s2a := crc8_shift_lt _ s1a
  have s2b := crc8_shift_lt _ s1b
  have s3a := crc8_shift_lt _ s2a
  have s3b := crc8_shift_lt _ s2b
  have s4a := crc8_shift_lt _ s3a
  have s4b := crc8_shift_lt _ s3b
  have s5a := crc8_shift_lt _ s4a
  have s5b := crc8_shift_lt _ s4b
  have s6a := crc8_shift_lt _ s5a
  have s6b := crc8_shift_lt _ s5b
  have s7a := crc8_shift_lt _ s6a
  have s7b := crc8_shift_lt _ s6b
  exact crc8_shift_inj ha hb (crc8_shift_inj s1a s1b (crc8_shift_inj s2a s2b
    (crc8_shift_inj s3a s3b (crc8_shift_inj s4a s4b (crc8_shift_inj s5a s5b
      (crc8_shift_inj s6a s6b (crc8_shift_inj s7a s7b h)))))))

theorem crsf_crc8tab_getD {a : Nat} (ha : a < 256) : crsf_crc8tab.getD a 0 = crc8_entry a := by
  simp [crsf_crc8tab, List.getElem?_range ha]

theorem byte_xor_lt {a b : Nat} (ha : a < 256) (hb : b < 256) : a ^^^ b < 256 :=
  Nat.xor_lt_two_pow (n := 8) ha hb

theorem crc8_step_lt {s b : Nat} (hs : s < 256) (hb : b < 256) : crc8_step s b < 256 := by
  unfold crc8_step
  rw [crsf_crc8tab_getD (byte_xor_lt hs hb)]
  exact crc8_entry_lt (byte_xor_lt hs hb)

theorem crc8_step_inj_state {s t b : Nat} (hs : s < 256) (ht : t < 256) (hb : b < 256)
    (h : crc8_step s b = crc8_step t b) : s = t := by
  unfold crc8_step at h
  rw [crsf_crc8tab_getD (byte_xor_lt hs hb), crsf_crc8tab_getD (byte_xor_lt ht hb)] at h
  exact Nat.xor_left_inj.mp (crc8_entry_inj (byte_xor_lt hs hb) (byte_xor_lt ht hb) h)

theorem crc8_step_inj_byte {s b c : Nat} (hs : s < 256) (hb : b < 256) (hc : c < 256)
    (h : crc8_step s b = crc8_step s c) : b = c := by
  unfold crc8_step at h
  rw [crsf_crc8tab_getD (byte_xor_lt hs hb), crsf_crc8tab_getD (byte_xor_lt hs hc)] at h
  exact Nat.xor_right_inj.mp (crc8_entry_inj (byte_xor_lt hs hb) (byte_xor_lt hs hc) h)

/-- The CRC register stays a byte. -/
theorem crc8_foldl_lt (l : List Nat) (hl : ∀ b ∈ l, b < 256) :
    ∀ s, s < 256 → l.foldl crc8_step s < 256 := by
  induction l with
  | nil => intro s hs; simpa using hs
  | cons x xs ih =>
    intro s hs
    simp only [List.foldl_cons]
    exact ih (fun b hb => hl b (List.mem_cons_of_mem _ hb)) _
      (crc8_step_lt hs (hl x (List.mem_cons_self _ _)))

/-- Two different registers stay different over the same bytes. -/
theorem crc8_foldl_ne (l : List Nat) (hl : ∀ b ∈ l, b < 256) :
    ∀ s t, s < 256 → t < 256 → s ≠ t → l.foldl crc8_step s ≠ l.foldl crc8_step t := by
  induction l with
  | nil => intro s t _ _ hne; simpa using hne
  | cons x xs ih =>
    intro s t hs ht hne
    have hx : x < 256 := hl x (List.mem_cons_self _ _)
    simp only [List.foldl_cons]
    exact ih (fun b hb => hl b (List.mem_cons_of_mem _ hb)) _ _
      (crc8_step_lt hs hx) (crc8_step_lt ht hx)
      (fun h => hne (crc8_step_inj_state hs ht hx h))

/-- Replacing one byte by a different byte changes the CRC. -/
theorem crc8_foldl_set_ne (l : List Nat) (hl : ∀ b ∈ l, b < 256) (v : Nat) (hv : v < 256) :
    ∀ (p : Nat) (s : Nat), s < 256 → p < l.length → v ≠ l.getD p 0 →
      (l.set p v).foldl crc8_step s ≠ l.foldl crc8_step s := by
  induction l with
  | nil => intro p s _ hp; simp at hp
  | cons x xs ih =>
    intro p s hs hp hne
    have hx : x < 256 := hl x (List.mem_cons_self _ _)
    have hxs : ∀ b ∈ xs, b < 256 := fun b hb => hl b (List.mem_cons_of_mem _ hb)
    cases p with
    | zero =>
      simp only [List.set_cons_zero, List.foldl_cons]
      have hvx : v ≠ x := by simpa using hne
      exact crc8_foldl_ne xs hxs _ _ (crc8_step_lt hs hv) (crc8_step_lt hs hx)
        (fun h => hvx (crc8_step_inj_byte hs hv hx h))
    | succ q =>
      simp only [List.set_cons_succ, List.foldl_cons]
      have hq : q < xs.length := by simpa using hp
      have hne2 : v ≠ xs.getD q 0 := by simpa using hne
      exact ih hxs q _ (crc8_step_lt hs hx) hq hne2

/-- Flipping a bit of a byte gives a different byte. -/
theorem flip_byte (b j : Nat) (hb : b < 256) (hj : j < 8) :
    b ^^^ 2 ^ j < 256 ∧ b ^^^ 2 ^ j ≠ b := by
  constructor
  · have h2 : 2 ^ j < 2 ^ 8 := Nat.pow_lt_pow_right (by decide) hj
    exact byte_xor_lt hb h2
  · intro h
    have h0 : b ^^^ 2 ^ j = b ^^^ 0 := by simpa using h
    have := Nat.xor_right_inj.mp h0
    exact absurd this (Nat.two_pow_pos j).ne'

/-- The CRC of a list whose byte `p` was replaced by a different byte differs. -/
theorem crsf_crc8_set_ne (l : List Nat) (hl : ∀ b ∈ l, b < 256) (n p v : Nat)
    (hv : v < 256) (hp : p < n) (hn : n ≤ l.length) (hne : v ≠ l.getD p 0) :
    crsf_crc8 (l.set p v) n ≠ crsf_crc8 l n := by
  unfold crsf_crc8
  rw [List.set_take]
  have hlt : ∀ b ∈ l.take n, b < 256 := fun b hb => hl b (List.mem_of_mem_take hb)
  have hplen : p < (l.take n).length := by
    rw [List.length_take]
    omega
  have hget : (l.take n).getD p 0 = l.getD p 0 := by
    simp [List.getElem?_take, hp]
  exact crc8_foldl_set_ne (l.take n) hlt v hv p 0 (by decide) hplen (by rw [hget]; exact hne)

/-- The CRC of the first `n` bytes does not see a change at index `n` or behind. -/
theorem crsf_crc8_set_behind (l : List Nat) (n p v : Nat) (hp : n ≤ p) :
    crsf_crc8 (l.set p v) n = crsf_crc8 l n := by
  unfold crsf_crc8
  rw [List.set_take, List.set_eq_of_length_le]
  rw [List.length_take]
  omega

/-- A frame with one bit of `type..crc` flipped fails the CRC check. -/
theorem flipBit_fails_crc (length : Nat) (rest : List Nat) (k : Nat)
    (hbytes : ∀ b ∈ rest, b < 256) (hsize : rest.length = length)
    (hcrc : crsf_crc8 rest (length - 1) = rest.getD (length - 1) 0)
    (hk : k < 8 * length) :
    crsf_crc8 (flipBit rest k) (length - 1) ≠ (flipBit rest k).getD (length - 1) 0 := by
  have hp : k / 8 < rest.length := by omega
  have hj : k % 8 < 8 := Nat.mod_lt _ (by decide)
  have hx : rest.getD (k / 8) 0 < 256 := by
    rw [List.getD_eq_getElem rest 0 hp]
    exact hbytes _ (List.getElem_mem hp)
  obtain ⟨hv, hvne⟩ := flip_byte _ _ hx hj
  unfold flipBit
  by_cases hcase : k / 8 < length - 1
  · -- the flipped bit lies in type..payload: the CRC changes, the CRC byte does not
    have h1 := crsf_crc8_set_ne rest hbytes (length - 1) (k / 8) _ hv hcase (by omega) hvne
    have h2 : (rest.set (k / 8) (rest.getD (k / 8) 0 ^^^ 2 ^ (k % 8))).getD (length - 1) 0
        = rest.getD (length - 1) 0 := by
      simp only [List.getD_eq_getElem?_getD]
      rw [List.getElem?_set_ne (by omega)]
    rw [h2, ← hcrc]
    exact h1
  · -- the flipped bit lies in the CRC byte: the CRC byte changes, the CRC does not
    have hpe : k / 8 = length - 1 := by omega
    have h1 := crsf_crc8_set_behind rest (length - 1) (k / 8)
      (rest.getD (k / 8) 0 ^^^ 2 ^ (k % 8)) (by omega)
    have h2 : (rest.set (k / 8) (rest.getD (k / 8) 0 ^^^ 2 ^ (k % 8))).getD (length - 1) 0
        = rest.getD (k / 8) 0 ^^^ 2 ^ (k % 8) := by
      simp only [List.getD_eq_getElem?_getD]
      rw [← hpe, List.getElem?_set_self hp]
      rfl
    rw [h1, h2, hcrc, ← hpe]
    exact fun h => hvne h.symm

/-! ## The reassembler emits CRC-checked frames only -/

/-- Every frame `parseFrames` emits is a valid frame: it has passed the address, length
and CRC checks. -/
theorem parseFrames_emits_valid :
    ∀ (fuel : Nat) (buf fr : List Nat), fr ∈ (parseFrames fuel buf).1 → frameValid fr := by
  intro fuel
  induction fuel with
  | zero => intro buf fr h; simp [parseFrames] at h
  | succ n ih =>
    intro buf fr h
    match buf, h with
    | [], h => simp [parseFrames] at h
    | [_], h => simp [parseFrames] at h
    | address :: length :: rest, h =>
      simp only [parseFrames] at h
      split at h
      · exact ih _ _ h
      · rename_i haddr
        split at h
        · exact ih _ _ h
        · rename_i hrange
          split at h
          · simp at h
          · rename_i hbuffered
            split at h
            · rename_i hcrc
              rcases List.mem_cons.mp h with heq | hmem
              · subst heq
                have hlen : (rest.take length).length = length := by
                  rw [List.length_take]
                  omega
                refine ⟨by simpa using haddr, by omega, by omega, hlen, ?_⟩
                have e1 : crsf_crc8 (rest.take length) (length - 1) = crsf_crc8 rest (length - 1) := by
                  unfold crsf_crc8
                  rw [List.take_take]
                  congr 2
                  omega
                have e2 : (rest.take length).getD (length - 1) 0 = rest.getD (length - 1) 0 := by
                  simp only [List.getD_eq_getElem?_getD, List.getElem?_take]
                  rw [if_pos (by omega)]
                rw [e1, e2]
                exact hcrc
              · exact ih _ _ hmem
            · exact ih _ _ h

/-- One more round than the buffer has bytes changes nothing: the loop has ended. -/
theorem parseFrames_fuel_succ : ∀ (fuel : Nat) (buf : List Nat), buf.length ≤ fuel →
    parseFrames (fuel + 1) buf = parseFrames fuel buf := by
  intro fuel
  induction fuel with
  | zero =>
    intro buf h
    have hnil : buf = [] := List.length_eq_zero.mp (by omega)
    subst hnil
    simp [parseFrames]
  | succ n ih =>
    intro buf h
    match buf, h with
    | [], _ => simp [parseFrames]
    | [_], _ => simp [parseFrames]
    | address :: length :: rest, h =>
      simp only [List.length_cons] at h
      have h1 : (length :: rest).length ≤ n := by simp; omega
      have h2 : (rest.drop length).length ≤ n := by simp; omega
      rw [parseFrames, parseFrames.eq_2 n, ih _ h1, ih _ h2]

/-- The fuel `readPacket` gives the loop, the number of buffered bytes, is enough: any
larger fuel gives the same frames and the same rest. -/
theorem parseFrames_fuel_enough (buf : List Nat) : ∀ extra : Nat,
    parseFrames (buf.length + extra) buf = parseFrames buf.length buf := by
  intro extra
  induction extra with
  | zero => rfl
  | succ e ih =>
    rw [← Nat.add_assoc, parseFrames_fuel_succ _ _ (by omega), ih]

/-- Every frame `readPacket` emits is a valid frame, whatever the buffer holds and
whatever arrives. -/
theorem readPacket_emits_valid (capacity : Nat) (buffer inData : List Nat) (len : Nat)
    (fr : List Nat) (h : fr ∈ (readPacket capacity buffer inData len).1) : frameValid fr :=
  parseFrames_emits_valid _ _ fr h

/-- Appending within the capacity keeps every byte. -/
theorem appendBounded_fits (capacity : Nat) (inData : List Nat) :
    ∀ buffer : List Nat, buffer.length + inData.length ≤ capacity →
      appendBounded capacity buffer inData = buffer ++ inData := by
  induction inData with
  | nil => intro buffer _; simp [appendBounded]
  | cons b bs ih =>
    intro buffer h
    simp only [List.length_cons] at h
    have hlt : buffer.length < capacity := by omega
    simp only [appendBounded, if_pos hlt]
    rw [ih (buffer ++ [b]) (by simp; omega)]
    simp

/-- A valid frame fed whole into an empty reassembler that can hold it is emitted, and
nothing stays buffered: the model does produce frames. -/
theorem readPacket_emits_whole_valid_frame (capacity : Nat) (frame : List Nat)
    (hvalid : frameValid frame) (hcap : frame.length ≤ capacity) :
    readPacket capacity [] frame frame.length = ([frame], []) := by
  match frame, hvalid with
  | address :: length :: rest, ⟨haddr, h3, hmax, hsize, hcrc⟩ =>
    unfold readPacket
    rw [List.take_length, appendBounded_fits capacity _ [] (by simpa using hcap)]
    simp only [List.nil_append, List.length_cons, parseFrames, haddr]
    have hr : ¬ (length < 3 ∨ CRSF_FRAME_SIZE_MAX - 2 < length) := by omega
    have hb : ¬ rest.length < length := by omega
    simp only [Bool.true_eq_false, if_false, hr, hb, hcrc, if_true]
    rw [← hsize, List.take_length, List.drop_length]

/-- C3: for every valid frame (recognized address, length in range, last byte the
DVB-S2 CRC-8 of type and payload) and every bit position `k` within `type..crc`, the
frame with that one bit flipped fails the CRC check, is no valid frame, and is never
emitted by `readPacket`, whatever the capacity, the buffered bytes and the input. -/
theorem single_bit_flip_is_rejected (address length : Nat) (rest : List Nat) (k : Nat)
    (hvalid : frameValid (address :: length :: rest))
    (hbytes : ∀ b ∈ rest, b < 256) (hk : k < 8 * length) :
    crsf_crc8 (flipBit rest k) (length - 1) ≠ (flipBit rest k).getD (length - 1) 0 ∧
      ¬ frameValid (address :: length :: flipBit rest k) ∧
      ∀ (capacity : Nat) (buffer inData : List Nat) (len : Nat),
        address :: length :: flipBit rest k ∉ (readPacket capacity buffer inData len).1 := by
  obtain ⟨_, _, _, hsize, hcrc⟩ := hvalid
  have hfail := flipBit_fails_crc length rest k hbytes hsize hcrc hk
  have hinvalid : ¬ frameValid (address :: length :: flipBit rest k) :=
    fun h => hfail h.2.2.2.2
  exact ⟨hfail, hinvalid, fun capacity buffer inData len hmem =>
    hinvalid (readPacket_emits_valid capacity buffer inData len _ hmem)⟩

/-- Witness of `single_bit_flip_is_rejected`: the restart command's frame
`EE 03 31 05 25` with bit 0 of the type byte flipped. -/
theorem single_bit_flip_is_rejected_witness :
    (frameValid (0xEE :: 3 :: [0x31, 0x05, 0x25]) ∧ (∀ b ∈ [0x31, 0x05, 0x25], b < 256) ∧
        0 < 8 * 3) ∧
      (crsf_crc8 (flipBit [0x31, 0x05, 0x25] 0) (3 - 1)
          ≠ (flipBit [0x31, 0x05, 0x25] 0).getD (3 - 1) 0 ∧
        ¬ frameValid (0xEE :: 3 :: flipBit [0x31, 0x05, 0x25] 0) ∧
        ∀ (capacity : Nat) (buffer inData : List Nat) (len : Nat),
          0xEE :: 3 :: flipBit [0x31, 0x05, 0x25] 0 ∉ (readPacket capacity buffer inData len).1) :=
  ⟨⟨⟨by decide, by decide, by decide, by decide, by decide⟩, by decide, by decide⟩,
    single_bit_flip_is_rejected 0xEE 3 [0x31, 0x05, 0x25] 0
      ⟨by decide, by decide, by decide, by decide, by decide⟩ (by decide) (by decide)⟩

/-! ## RC channels: the decoded value is the 11-bit field of the bitstream -/

/-- Bit `t` of the integer a bit field stands for is the field's bit `t`. -/
theorem bitsToNat_testBit (l : List Bool) : ∀ t, (bitsToNat l).testBit t = l.getD t false := by
  induction l with
  | nil => intro t; simp [bitsToNat]
  | cons b bs ih =>
    intro t
    cases t with
    | zero =>
      cases b <;> simp [bitsToNat, Nat.testBit_zero]
    | succ n =>
      have hdiv : ((if b then 1 else 0) + 2 * bitsToNat bs) / 2 = bitsToNat bs := by
        cases b with
        | false => simp
        | true => simp; omega
      simp only [bitsToNat, Nat.testBit_succ, hdiv, ih n]
      simp

/-- Bit `n` of the bitstream is bit `n % 8` of byte `n / 8`. -/
theorem payloadBits_getD (payload : List Nat) :
    ∀ n, (payloadBits payload).getD n false = (payload.getD (n / 8) 0).testBit (n % 8) := by
  induction payload with
  | nil => intro n; simp [payloadBits]
  | cons b bs ih =>
    intro n
    have hcons : payloadBits (b :: bs)
        = ((List.range 8).map fun j => b.testBit j) ++ payloadBits bs := by
      simp [payloadBits]
    rw [hcons]
    by_cases hn : n < 8
    · have h0 : n / 8 = 0 := by omega
      have h1 : n % 8 = n := by omega
      simp only [List.getD_eq_getElem?_getD]
      rw [List.getElem?_append_left (by simpa using hn)]
      simp [h0, h1, List.getElem?_range hn]
    · have h0 : n / 8 = (n - 8) / 8 + 1 := by omega
      have h1 : n % 8 = (n - 8) % 8 := by omega
      have ih8 := ih (n - 8)
      simp only [List.getD_eq_getElem?_getD] at ih8 ⊢
      rw [List.getElem?_append_right (by simp; omega)]
      simp only [List.length_map, List.length_range]
      rw [ih8, h0, h1]
      simp

/-- Bit `t` of a slice of `width` bits that starts at bit `s`. -/
theorem slice_getD (l : List Bool) (width s t : Nat) :
    ((l.drop s).take width).getD t false = (decide (t < width) && l.getD (s + t) false) := by
  simp only [List.getD_eq_getElem?_getD, List.getElem?_take, List.getElem?_drop]
  by_cases h : t < width <;> simp [h]

/-- Channel `i` of the decoder's result, for `i` below `CRSF_MAX_CHANNEL`. -/
theorem decodeChannels_getD (payload : List Nat) (i : Nat) (hi : i < CRSF_MAX_CHANNEL) :
    (decodeChannels payload).getD i 0
      = bitsToNat (((payloadBits payload).drop (11 * i)).take 11) := by
  simp [decodeChannels, List.getElem?_range hi]

/-- Bit `t` of decoded channel `i` is bit `11 * i + t` of the bitstream for `t < 11`,
and no bit is set above. -/
theorem decodeChannels_testBit (payload : List Nat) (i t : Nat) (hi : i < CRSF_MAX_CHANNEL) :
    ((decodeChannels payload).getD i 0).testBit t
      = (decide (t < 11) &&
          (payload.getD ((11 * i + t) / 8) 0).testBit ((11 * i + t) % 8)) := by
  rw [decodeChannels_getD payload i hi, bitsToNat_testBit, slice_getD, payloadBits_getD]

/-- Bit `n` of the payload read as one little-endian integer is bit `n % 8` of byte
`n / 8`. -/
theorem littleEndianValue_testBit (payload : List Nat) (hbytes : ∀ b ∈ payload, b < 256) :
    ∀ n, (littleEndianValue payload).testBit n
      = (payload.getD (n / 8) 0).testBit (n % 8) := by
  induction payload with
  | nil => intro n; simp [littleEndianValue]
  | cons b bs ih =>
    intro n
    have hb : b < 2 ^ 8 := hbytes b (List.mem_cons_self _ _)
    have hbs : ∀ c ∈ bs, c < 256 := fun c hc => hbytes c (List.mem_cons_of_mem _ hc)
    have hval : littleEndianValue (b :: bs) = 2 ^ 8 * littleEndianValue bs + b := by
      simp only [littleEndianValue]
      omega
    rw [hval, Nat.testBit_mul_pow_two_add _ hb]
    by_cases hn : n < 8
    · have h0 : n / 8 = 0 := by omega
      have h1 : n % 8 = n := by omega
      simp [hn, h0, h1]
    · have h0 : n / 8 = (n - 8) / 8 + 1 := by omega
      have h1 : n % 8 = (n - 8) % 8 := by omega
      rw [if_neg hn, ih hbs (n - 8), h0, h1]
      simp

/-- The decoded channel as arithmetic on the little-endian integer: shift right by
`11 * i` bits and keep 11 bits. -/
theorem decodeChannels_eq_shift_mask (payload : List Nat) (hbytes : ∀ b ∈ payload, b < 256)
    (i : Nat) (hi : i < CRSF_MAX_CHANNEL) :
    (decodeChannels payload).getD i 0 = littleEndianValue payload / 2 ^ (11 * i) % 2 ^ 11 := by
  apply Nat.eq_of_testBit_eq
  intro t
  rw [decodeChannels_testBit payload i t hi, Nat.testBit_mod_two_pow,
    ← Nat.shiftRight_eq_div_pow, Nat.testBit_shiftRight, littleEndianValue_testBit payload hbytes]

/-- A decoded channel is an 11-bit value. -/
theorem decodeChannels_lt (payload : List Nat) (i : Nat) (hi : i < CRSF_MAX_CHANNEL) :
    (decodeChannels payload).getD i 0 < 2048 := by
  apply Nat.lt_pow_two_of_testBit (n := 11)
  intro t ht
  rw [decodeChannels_testBit payload i t hi]
  have : ¬ t < 11 := by omega
  simp [this]

/-! ## RC channels: packing and decoding round trip -/

/-- Byte `j` of the packed bitstream holds the bits `[8 * j, 8 * j + 8)`. -/
theorem bitsToBytes_getD : ∀ (n : Nat) (bits : List Bool) (j : Nat), j < n →
    (bitsToBytes n bits).getD j 0 = bitsToNat ((bits.drop (8 * j)).take 8) := by
  intro n
  induction n with
  | zero => intro bits j hj; omega
  | succ m ih =>
    intro bits j hj
    cases j with
    | zero => simp [bitsToBytes]
    | succ q =>
      have hq := ih (bits.drop 8) q (by omega)
      simp only [List.getD_eq_getElem?_getD] at hq ⊢
      simp only [bitsToBytes, List.getElem?_cons_succ, hq, List.drop_drop]
      have e : 8 + 8 * q = 8 * (q + 1) := by omega
      rw [e]

/-- Bit `11 * i + t` of the concatenated 11-bit fields is bit `t` of value `i`. -/
theorem fields_getD (channels : List Nat) : ∀ (i t : Nat), t < 11 →
    (channels.flatMap fun v => (List.range 11).map fun j => v.testBit j).getD (11 * i + t) false
      = (channels.getD i 0).testBit t := by
  induction channels with
  | nil => intro i t _; simp
  | cons v vs ih =>
    intro i t ht
    have hcons : ((v :: vs).flatMap fun v => (List.range 11).map fun j => v.testBit j)
        = ((List.range 11).map fun j => v.testBit j)
          ++ (vs.flatMap fun v => (List.range 11).map fun j => v.testBit j) := by
      simp
    rw [hcons]
    cases i with
    | zero =>
      simp only [List.getD_eq_getElem?_getD]
      rw [List.getElem?_append_left (by simpa using ht)]
      simp [List.getElem?_range ht]
    | succ q =>
      have ihq := ih q t ht
      simp only [List.getD_eq_getElem?_getD] at ihq ⊢
      rw [List.getElem?_append_right (by simp; omega)]
      simp only [List.length_map, List.length_range]
      have e : 11 * (q + 1) + t - 11 = 11 * q + t := by omega
      rw [e, ihq]
      simp

/-- Bit `t` of channel `i` decoded from a packed payload is bit `t` of the packed
value for `t < 11`, and no bit is set above. -/
theorem decode_pack_testBit (channels : List Nat) (i t : Nat) (hi : i < CRSF_MAX_CHANNEL) :
    ((decodeChannels (packChannels channels)).getD i 0).testBit t
      = (decide (t < 11) && (channels.getD i 0).testBit t) := by
  rw [decodeChannels_testBit _ i t hi]
  by_cases ht : t < 11
  · have hi16 : i < 16 := hi
    have hj : (11 * i + t) / 8 < CRSF_PACKET_LENGTH := by
      simp only [CRSF_PACKET_LENGTH]
      omega
    have hmod : (11 * i + t) % 8 < 8 := Nat.mod_lt _ (by decide)
    have hsum : 8 * ((11 * i + t) / 8) + (11 * i + t) % 8 = 11 * i + t := Nat.div_add_mod _ _
    simp only [packChannels]
    rw [bitsToBytes_getD _ _ _ hj, bitsToNat_testBit, slice_getD, hsum, fields_getD _ i t ht]
    simp [hmod]
  · simp [ht]

/-- Sixteen 11-bit values survive packing and decoding unchanged. -/
theorem decode_pack_roundtrip (channels : List Nat) (hlen : channels.length = CRSF_MAX_CHANNEL)
    (hval : ∀ v ∈ channels, v < 2048) :
    decodeChannels (packChannels channels) = channels := by
  apply List.ext_getElem
  · simp [decodeChannels, hlen]
  · intro i h1 h2
    have hi : i < CRSF_MAX_CHANNEL := by rw [← hlen]; exact h2
    have hv : channels[i] < 2 ^ 11 := hval _ (List.getElem_mem h2)
    have hd : (decodeChannels (packChannels channels))[i]
        = (decodeChannels (packChannels channels)).getD i 0 :=
      (List.getD_eq_getElem _ 0 h1).symm
    have hc : channels.getD i 0 = channels[i] := List.getD_eq_getElem _ 0 h2
    rw [hd]
    apply Nat.eq_of_testBit_eq
    intro t
    rw [decode_pack_testBit channels i t hi, hc]
    by_cases ht : t < 11
    · simp [ht]
    · have hlt : channels[i] < 2 ^ t :=
        lt_of_lt_of_le hv (Nat.pow_le_pow_right (by decide) (by omega))
      simp [ht, Nat.testBit_lt_two_pow hlt]

/-- C4: for every 22-byte RC-channels payload held in `m_crsfData` behind address,
length and type, and every channel index `i` below 16, `getChannel(i)` after
`updateChannels()` is the 11-bit unsigned integer whose bit `t` is bit `11 * i + t` of
the payload read as one little-endian bitstream (bit `n % 8` of byte `n / 8`), that is
the payload's little-endian integer shifted right by `11 * i` and cut to 11 bits; it is
not clamped: whatever sixteen 11-bit values are packed come back unchanged. In
particular the all-zero payload decodes to sixteen 0s and the payload packing sixteen
values of 992 decodes to sixteen 992s. -/
theorem getChannel_is_bit_field (self : CRSF) (address length type crc : Nat)
    (payload : List Nat) (i : Nat)
    (hdata : self.m_crsfData = address :: length :: type :: (payload ++ [crc]))
    (hlen : payload.length = CRSF_PACKET_LENGTH) (hbytes : ∀ b ∈ payload, b < 256)
    (hi : i < CRSF_MAX_CHANNEL) :
    (∀ t, (self.updateChannels.getChannel i).testBit t
        = (decide (t < 11) &&
            (payload.getD ((11 * i + t) / 8) 0).testBit ((11 * i + t) % 8))) ∧
      self.updateChannels.getChannel i = littleEndianValue payload / 2 ^ (11 * i) % 2 ^ 11 ∧
      (∀ channels : List Nat, channels.length = CRSF_MAX_CHANNEL →
        (∀ v ∈ channels, v < 2048) → decodeChannels (packChannels channels) = channels) ∧
      decodeChannels (List.replicate CRSF_PACKET_LENGTH 0) = List.replicate CRSF_MAX_CHANNEL 0 ∧
      decodeChannels (packChannels (List.replicate CRSF_MAX_CHANNEL 992))
        = List.replicate CRSF_MAX_CHANNEL 992 := by
  have hpay : (self.m_crsfData.drop 3).take CRSF_PACKET_LENGTH = payload := by
    rw [hdata, ← hlen]
    simp
  have hget : self.updateChannels.getChannel i = (decodeChannels payload).getD i 0 := by
    simp only [CRSF.updateChannels, CRSF.getChannel, hpay]
  refine ⟨fun t => ?_, ?_, decode_pack_roundtrip, ?_, ?_⟩
  · rw [hget, decodeChannels_testBit payload i t hi]
  · rw [hget, decodeChannels_eq_shift_mask payload hbytes i hi]
  · decide!
  · exact decode_pack_roundtrip _ (by simp) (by simp)

/-- Witness of `getChannel_is_bit_field`: the packet with all channels at 992,
channel 3. -/
theorem getChannel_is_bit_field_witness :
    (centreEngine.m_crsfData = CRSF_ADDRESS_FLIGHT_CONTROLLER :: CRSF_FRAME_LENGTH :: 0x16 ::
          (centrePayload ++ [crsf_crc8 (0x16 :: centrePayload) (CRSF_FRAME_LENGTH - 1)]) ∧
        centrePayload.length = CRSF_PACKET_LENGTH ∧ (∀ b ∈ centrePayload, b < 256) ∧
        3 < CRSF_MAX_CHANNEL) ∧
      ((∀ t, (centreEngine.updateChannels.getChannel 3).testBit t
          = (decide (t < 11) &&
              (centrePayload.getD ((11 * 3 + t) / 8) 0).testBit ((11 * 3 + t) % 8))) ∧
        centreEngine.updateChannels.getChannel 3
          = littleEndianValue centrePayload / 2 ^ (11 * 3) % 2 ^ 11 ∧
        (∀ channels : List Nat, channels.length = CRSF_MAX_CHANNEL →
          (∀ v ∈ channels, v < 2048) → decodeChannels (packChannels channels) = channels) ∧
        decodeChannels (List.replicate CRSF_PACKET_LENGTH 0)
          = List.replicate CRSF_MAX_CHANNEL 0 ∧
        decodeChannels (packChannels (List.replicate CRSF_MAX_CHANNEL 992))
          = List.replicate CRSF_MAX_CHANNEL 992) :=
  ⟨⟨rfl, by decide, by decide, by decide⟩,
    getChannel_is_bit_field centreEngine CRSF_ADDRESS_FLIGHT_CONTROLLER CRSF_FRAME_LENGTH 0x16
      (crsf_crc8 (0x16 :: centrePayload) (CRSF_FRAME_LENGTH - 1)) centrePayload 3
      rfl (by decide) (by decide) (by decide)⟩

/-- The engine of the witness decodes sixteen channels of 992, and `centrePayload` is
what packing sixteen 992s gives. -/
theorem centreEngine_channels :
    centreEngine.updateChannels.m_channels = List.replicate 16 992 ∧
      packChannels (List.replicate 16 992) = centrePayload := by
  constructor <;> decide!

end TitaRcPairing
